import Mathlib

/-!
Verification of the NTRIP-FreeRTOS-Client-for-ESP32 core against its
specification.  The C++ sources are shallowly embedded: byte buffers become
`List ℕ`, C strings become `List Char`, `double`/`float` become `ℚ`,
machine integers become `ℤ`/`ℕ` with explicit truncation (`% 2^w`) where the
code converts between widths, and the FreeRTOS queues become `List`-valued
functional state.  Each embedded definition keeps the name of the C function
it models and is translated line by line from the source file named in its
doc comment.
-/

set_option maxRecDepth 100000

/-! ## Generic C-library helpers (models of `atof`, `atoi`, `strtok`, casts) -/

/-- Truncation toward zero, the semantics of a C `(int)` cast of a floating
value (here modelled on `ℚ`). -/
def truncQ (q : ℚ) : ℤ := if 0 ≤ q then ⌊q⌋ else ⌈q⌉

/-- C conversion of a signed integer value to `uint8_t`: reduction mod 256. -/
def u8 (z : ℤ) : ℤ := z % 256

/-- C conversion of a signed integer value to `uint16_t`: reduction mod 65536. -/
def u16 (z : ℤ) : ℤ := z % 65536

/-- Characters accepted by `isspace` in the C locale. -/
def isSpaceChar (c : Char) : Bool :=
  c = ' ' || c = '\t' || c = '\n' || c = '\r' || c = Char.ofNat 11 || c = Char.ofNat 12

/-- Numeric value of a decimal digit character. -/
def digVal (c : Char) : ℕ := c.toNat - 48

/-- Consume a maximal run of decimal digits, returning the accumulated value
and the remaining characters. -/
def parseDigitsAux : List Char → ℕ → ℕ × List Char
  | [], acc => (acc, [])
  | c :: r, acc =>
    if c.isDigit then parseDigitsAux r (10 * acc + digVal c) else (acc, c :: r)

/-- Result of scanning a C floating-point literal: sign flag, integer part,
fraction digits value, number of fraction digits. -/
structure AtofParts where
  neg : Bool
  ip : ℕ
  fp : ℕ
  fd : ℕ
deriving DecidableEq

/-- Scan phase of the C library `atof`: optional whitespace, optional sign,
integer digits, optional '.' and fraction digits; trailing junk is ignored
(exponents are not modelled; no input in this code base carries one). -/
def atofParts (cs : List Char) : AtofParts :=
  let cs1 := cs.dropWhile isSpaceChar
  let p : Bool × List Char :=
    match cs1 with
    | '-' :: r => (true, r)
    | '+' :: r => (false, r)
    | l => (false, l)
  let n := parseDigitsAux p.2 0
  match n.2 with
  | '.' :: r =>
    let f := parseDigitsAux r 0
    ⟨p.1, n.1, f.1, r.length - f.2.length⟩
  | _ => ⟨p.1, n.1, 0, 0⟩

/-- Model of the C library `atof`, with reals replaced by `ℚ`. -/
def atofQ (cs : List Char) : ℚ :=
  let p := atofParts cs
  let v : ℚ := (p.ip : ℚ) + (p.fp : ℚ) / ((10 : ℚ) ^ p.fd)
  if p.neg then -v else v

/-- Model of the C library `atoi`. -/
def atoiZ (cs : List Char) : ℤ :=
  let cs1 := cs.dropWhile isSpaceChar
  match cs1 with
  | '-' :: r => -(((parseDigitsAux r 0).1 : ℤ))
  | '+' :: r => ((parseDigitsAux r 0).1 : ℤ)
  | l => ((parseDigitsAux l 0).1 : ℤ)

/-- Split a character list at every comma (the separators are dropped,
empty pieces are kept; see `nmeaTokens` for the `strtok` behaviour). -/
def splitComma : List Char → List (List Char)
  | [] => [[]]
  | c :: rest =>
    match splitComma rest with
    | [] => [[]]
    | t :: ts => if c = ',' then [] :: t :: ts else (c :: t) :: ts

/-- Token list produced by the `strtok(copy, ",")` loops of NMEAParser.cpp:
the sentence is first truncated to 255 characters (`strncpy` into a 256-byte
local buffer), then split at commas; `strtok` never yields empty tokens, so
empty fields are skipped and the following fields shift down. -/
def nmeaTokens (cs : List Char) : List (List Char) :=
  (splitComma (cs.take 255)).filter (fun t => t ≠ [])

/-! ## NMEAParser.cpp -/

/-- `GGAData` (src/src/NMEAparser/NMEAParser.h), zero-initialised by
`GGAData data = {}` in `parseGGASentence`. -/
structure GGAData where
  latitude : ℚ
  longitude : ℚ
  altitude : ℚ
  fixType : ℤ
  satellites : ℤ
  hdop : ℚ
  ageOfDifferentialData : ℚ
  latDirection : Char
  lonDirection : Char
  timeBuffer : List Char

/-- Zero initialisation of `GGAData`. -/
def ggaInit : GGAData :=
  { latitude := 0, longitude := 0, altitude := 0, fixType := 0, satellites := 0,
    hdop := 0, ageOfDifferentialData := 0,
    latDirection := Char.ofNat 0, lonDirection := Char.ofNat 0, timeBuffer := [] }

/-- One `switch (fieldIndex)` step of the scan loop of `parseGGASentence`
(src/src/NMEAparser/NMEAParser.cpp, lines 14-49); the time field is copied by
`strncpy` into an 11-byte buffer, hence truncated to 10 characters. -/
def ggaField (d : GGAData) (i : ℕ) (t : List Char) : GGAData :=
  if i = 1 then { d with timeBuffer := t.take 10 }
  else if i = 2 then { d with latitude := atofQ t }
  else if i = 3 then { d with latDirection := t.headD (Char.ofNat 0) }
  else if i = 4 then { d with longitude := atofQ t }
  else if i = 5 then { d with lonDirection := t.headD (Char.ofNat 0) }
  else if i = 6 then { d with fixType := atoiZ t }
  else if i = 7 then { d with satellites := atoiZ t }
  else if i = 8 then { d with hdop := atofQ t }
  else if i = 9 then { d with altitude := atofQ t }
  else if i = 13 then { d with ageOfDifferentialData := atofQ t }
  else d

/-- The `strtok`/`fieldIndex` scan loop of `parseGGASentence`. -/
def ggaScan : List (List Char) → ℕ → GGAData → GGAData
  | [], _, d => d
  | t :: ts, i, d => ggaScan ts (i + 1) (ggaField d i t)

/-- `parseGGASentence` (src/src/NMEAparser/NMEAParser.cpp, lines 5-67): scan
all comma-separated fields, then convert both raw DDDMM.mmmm coordinates to
decimal degrees and apply the hemisphere signs. -/
def parseGGASentence (cs : List Char) : GGAData :=
  let d := ggaScan (nmeaTokens cs) 0 ggaInit
  let latDegrees : ℤ := truncQ (d.latitude / 100)
  let latMinutes : ℚ := d.latitude - (latDegrees : ℚ) * 100
  let lat0 : ℚ := (latDegrees : ℚ) + latMinutes / 60
  let lat : ℚ := if d.latDirection = 'S' then -lat0 else lat0
  let lonDegrees : ℤ := truncQ (d.longitude / 100)
  let lonMinutes : ℚ := d.longitude - (lonDegrees : ℚ) * 100
  let lon0 : ℚ := (lonDegrees : ℚ) + lonMinutes / 60
  let lon : ℚ := if d.lonDirection = 'W' then -lon0 else lon0
  { d with latitude := lat, longitude := lon }

/-- `RMCData` (src/src/NMEAparser/NMEAParser.h). -/
structure RMCData where
  year : ℤ
  month : ℤ
  day : ℤ
  valid : Bool
deriving DecidableEq

/-- Scan-loop state of `parseRMCSentence`: the `valid` flag and the 6-byte
`dateBuffer`. -/
structure RMCScanState where
  valid : Bool
  dateBuffer : List Char

/-- The `strtok`/`fieldIndex` scan loop of `parseRMCSentence`
(src/src/NMEAparser/NMEAParser.cpp, lines 84-97): field 2 compares the status
against "A", field 9 copies at most 6 characters of the date into
`dateBuffer`. -/
def rmcScan : List (List Char) → ℕ → RMCScanState → RMCScanState
  | [], _, st => st
  | t :: ts, i, st =>
    rmcScan ts (i + 1)
      (if i = 2 then { st with valid := if t = ['A'] then true else st.valid }
       else if i = 9 then { st with dateBuffer := t.take 6 }
       else st)

/-- Value of a character treated as a decimal digit by C arithmetic
(`c - '0'`), signed. -/
def charDigitZ (c : Char) : ℤ := (c.toNat : ℤ) - 48

/-- `parseRMCSentence` (src/src/NMEAparser/NMEAParser.cpp, lines 69-108):
defaults 1 Jan 2025 / invalid, scan the fields, then decode a 6-character
DDMMYY date with the Y2K pivot (yy ≥ 80 → 1900+yy, else 2000+yy). -/
def parseRMCSentence (cs : List Char) : RMCData :=
  let st := rmcScan (nmeaTokens cs) 0 { valid := false, dateBuffer := [] }
  let base : RMCData := { year := 2025, month := 1, day := 1, valid := st.valid }
  if st.dateBuffer.length = 6 then
    let b := st.dateBuffer
    let yy : ℤ :=
      10 * charDigitZ (b.getD 4 (Char.ofNat 0)) + charDigitZ (b.getD 5 (Char.ofNat 0))
    { base with
      day := 10 * charDigitZ (b.getD 0 (Char.ofNat 0)) + charDigitZ (b.getD 1 (Char.ofNat 0)),
      month := 10 * charDigitZ (b.getD 2 (Char.ofNat 0)) + charDigitZ (b.getD 3 (Char.ofNat 0)),
      year := if 80 ≤ yy then 1900 + yy else 2000 + yy }
  else base

/-- `VTGData` (src/src/NMEAparser/NMEAParser.h). -/
structure VTGData where
  speed : ℚ
  direction : ℚ

/-- The `strtok` loop of `parseVTGSentence`
(src/src/NMEAparser/NMEAParser.cpp, lines 124-150), carrying the previous
token: a token starting with 'K' converts the previous token from km/h to
m/s; field 1 is the true heading, reset to 0 when field 2 is not "T". -/
def vtgScan : List (List Char) → ℕ → VTGData → Option (List Char) → VTGData
  | [], _, d, _ => d
  | t :: ts, i, d, prev =>
    let d1 : VTGData :=
      { d with speed :=
          if t.headD (Char.ofNat 0) = 'K' ∧ prev.isSome = true
          then atofQ (prev.getD []) / (18 / 5 : ℚ)
          else d.speed }
    let d2 : VTGData :=
      { d1 with direction :=
          if i = 1 then atofQ t
          else if i = 2 then (if t ≠ ['T'] then 0 else d1.direction)
          else d1.direction }
    vtgScan ts (i + 1) d2 (some t)

/-- `parseVTGSentence` (src/src/NMEAparser/NMEAParser.cpp, lines 111-153). -/
def parseVTGSentence (cs : List Char) : VTGData :=
  vtgScan (nmeaTokens cs) 0 { speed := 0, direction := 0 } none

/-- Previous token of the last token starting with 'K' that has a previous
token, mirroring the last write to `data.speed` in `parseVTGSentence`. -/
def lastKPrev : Option (List Char) → List (List Char) → Option (List Char)
  | _, [] => none
  | prev, t :: ts =>
    match lastKPrev (some t) ts with
    | some p => some p
    | none =>
      if t.headD (Char.ofNat 0) = 'K' ∧ prev.isSome = true
      then prev
      else none

/-! ## CRC16.cpp -/

/-- One shift-and-conditionally-xor step of the inner bit loop of
`calculateCRC16` (src/src/lib/CRC16.cpp, lines 13-19), on a 16-bit value. -/
def crcBitStep (c : ℕ) : ℕ :=
  if c &&& 0x8000 ≠ 0 then ((c <<< 1) ^^^ 0x1021) % 65536 else (c <<< 1) % 65536

/-- One iteration of the outer byte loop of `calculateCRC16`:
xor the byte into the top of the register, then eight bit steps. -/
def crcByteStep (crc b : ℕ) : ℕ :=
  (List.range 8).foldl (fun c _ => crcBitStep c) ((crc ^^^ (b <<< 8)) % 65536)

/-- `calculateCRC16` (src/src/lib/CRC16.cpp): CRC-16 with polynomial 0x1021 and
initial value 0xFFFF, MSB first, no reflection, no final xor. -/
def calculateCRC16 (data : List ℕ) : ℕ := data.foldl crcByteStep 0xFFFF

/-! ## dataOutputTask.cpp — byte stuffing and framing -/

/-- `FRAME_SOH` (dataOutputTask.h). -/
def FRAME_SOH : ℕ := 0x01
/-- `FRAME_CAN` (dataOutputTask.h). -/
def FRAME_CAN : ℕ := 0x18
/-- `FRAME_DLE` (dataOutputTask.h). -/
def FRAME_DLE : ℕ := 0x10

/-- `stuff_byte` (src/src/dataOutputTask.cpp, lines 48-54): append the byte to
the output, preceded by a DLE escape when it is SOH, CAN or DLE. -/
def stuff_byte (b : ℕ) (output : List ℕ) : List ℕ :=
  if b = FRAME_SOH ∨ b = FRAME_CAN ∨ b = FRAME_DLE
  then output ++ [FRAME_DLE, b]
  else output ++ [b]

/-- The bytes `stuff_byte` appends for one input byte. -/
def stuffOne (b : ℕ) : List ℕ :=
  if b = FRAME_SOH ∨ b = FRAME_CAN ∨ b = FRAME_DLE then [FRAME_DLE, b] else [b]

/-- Framing part of `build_telemetry_frame` (src/src/dataOutputTask.cpp,
lines 84-109), applied to an already formatted message body: SOH, the stuffed
body bytes, the stuffed CRC-16 high byte, the stuffed CRC-16 low byte, CAN.
The CRC is computed over the unstuffed body only. -/
def build_telemetry_frame (body : List ℕ) : List ℕ :=
  let crc := calculateCRC16 body
  let crc_high := (crc >>> 8) &&& 0xFF
  let crc_low := crc &&& 0xFF
  let out := body.foldl (fun acc b => stuff_byte b acc) [FRAME_SOH]
  let out := stuff_byte crc_high out
  let out := stuff_byte crc_low out
  out ++ [FRAME_CAN]

/-- De-stuffing (the receiver-side inverse of the stuffing rule, not part of
this repository): a DLE escape is dropped and the following byte is taken
literally. -/
def destuffBytes : List ℕ → List ℕ
  | [] => []
  | [a] => [a]
  | a :: b :: rest =>
    if a = FRAME_DLE then b :: destuffBytes rest else a :: destuffBytes (b :: rest)

/-! ## gnssReceiverTask.cpp — checksum, validation, sentence dispatch -/

/-- Accumulating loop of `calculate_nmea_checksum`
(src/src/gnssReceiverTask.cpp, lines 44-48): xor characters until NUL, '*',
CR or LF. -/
def checksumLoop : List Char → ℕ → ℕ
  | [], acc => acc
  | c :: rest, acc =>
    if c.toNat = 0 ∨ c = '*' ∨ c = '\r' ∨ c = '\n' then acc
    else checksumLoop rest (acc ^^^ c.toNat)

/-- `calculate_nmea_checksum` (src/src/gnssReceiverTask.cpp, lines 37-51):
skip a leading '$', then xor all characters until '*', CR, LF or the end. -/
def calculate_nmea_checksum (cs : List Char) : ℕ :=
  checksumLoop (if cs.head? = some '$' then cs.drop 1 else cs) 0

/-- Model of `strchr(sentence, '*')`: the suffix starting at the first '*',
or `none`. -/
def strchrStar : List Char → Option (List Char)
  | [] => none
  | c :: rest => if c = '*' then some (c :: rest) else strchrStar rest

/-- Value of a hexadecimal digit, case-insensitive. -/
def hexVal (c : Char) : Option ℕ :=
  if c.isDigit then some (c.toNat - 48)
  else if 'a' ≤ c ∧ c ≤ 'f' then some (c.toNat - 87)
  else if 'A' ≤ c ∧ c ≤ 'F' then some (c.toNat - 55)
  else none

/-- Model of `sscanf(s, "%2hhx", &v)`: skip leading whitespace, then read an
optionally signed hexadecimal number of at most two characters including the
sign (the C standard gives the `x` conversion `strtoul` semantics, so a
leading '+' or '-' inside the field width is accepted, leaving room for a
single digit; a negative value wraps into the `unsigned char` destination).
The parse fails when no hexadecimal digit follows the optional sign; the
`"0x"` prefix corner is not modelled, no input here carries one. -/
def sscanf_hh_hex (cs : List Char) : Option ℕ :=
  match cs.dropWhile isSpaceChar with
  | [] => none
  | '+' :: rest =>
    match rest with
    | [] => none
    | c2 :: _ =>
      match hexVal c2 with
      | some v => some v
      | none => none
  | '-' :: rest =>
    match rest with
    | [] => none
    | c2 :: _ =>
      match hexVal c2 with
      | some v => some ((256 - v) % 256)
      | none => none
  | c1 :: rest =>
    match hexVal c1 with
    | none => none
    | some v1 =>
      match rest with
      | [] => some v1
      | c2 :: _ =>
        match hexVal c2 with
        | some v2 => some (16 * v1 + v2)
        | none => some v1

/-- `validate_nmea_sentence` (src/src/gnssReceiverTask.cpp, lines 54-75):
require a leading '$', a '*' with at least two further characters after it,
a successful `%2hhx` parse of the characters after the '*', and agreement of
the stated and computed checksums. -/
def validate_nmea_sentence (cs : List Char) : Bool :=
  match cs with
  | [] => false
  | c0 :: _ =>
    if c0 ≠ '$' then false
    else
      match strchrStar cs with
      | none => false
      | some ast =>
        if ast.length < 3 then false
        else
          match sscanf_hh_hex (ast.drop 1) with
          | none => false
          | some v => v = calculate_nmea_checksum cs

/-- Modelled from the spec: the acceptance predicate as worded in §4.2 of the
specification — a leading '$', a '*' followed by at least 2 hex characters,
and the 2-hex-digit value after the '*' equal to the computed checksum.  Used
only to compare the spec's wording against `validate_nmea_sentence`. -/
def validate_spec_twohex (cs : List Char) : Bool :=
  match cs with
  | [] => false
  | c0 :: _ =>
    if c0 ≠ '$' then false
    else
      match strchrStar cs with
      | none => false
      | some ast =>
        match ast.drop 1 with
        | c1 :: c2 :: _ =>
          match hexVal c1, hexVal c2 with
          | some v1, some v2 => 16 * v1 + v2 = calculate_nmea_checksum cs
          | _, _ => false
        | _ => false

/-- Whether a character is consumed (rather than terminating) by the
checksum loop. -/
def checksumKeep (c : Char) : Bool :=
  if c.toNat = 0 ∨ c = '*' ∨ c = '\r' ∨ c = '\n' then false else true

/-- The characters the checksum is computed over: everything strictly between
the leading '$' and the first '*' (or CR, LF, NUL, or the end). -/
def nmeaBody (cs : List Char) : List Char :=
  (if cs.head? = some '$' then cs.drop 1 else cs).takeWhile checksumKeep

/-- `is_sentence_type` (src/src/gnssReceiverTask.cpp, lines 78-89): a leading
'$', talker ID "GP" or "GN" at offset 1, and the given type at offset 3. -/
def is_sentence_type (cs : List Char) (ty : List Char) : Bool :=
  match cs with
  | [] => false
  | c0 :: _ =>
    if c0 ≠ '$' then false
    else if (cs.drop 1).take 2 = ['G', 'P'] ∨ (cs.drop 1).take 2 = ['G', 'N'] then
      (cs.drop 3).take ty.length = ty
    else false

/-! ## gnssReceiverTask.cpp — shared position state -/

/-- `gnss_data_t` (src/src/gnssReceiverTask.h), restricted to the fields the
claims are about (the raw `rmc`/`vtg` copies and the time-of-day fields
behave like `gga` and are modelled alike).  Integer fields declared `uint8_t`
or `uint16_t` in C hold their truncated values. -/
structure GnssData where
  gga : List Char
  latitude : ℚ
  longitude : ℚ
  altitude : ℚ
  heading : ℚ
  speed : ℚ
  hdop : ℚ
  day : ℤ
  month : ℤ
  year : ℤ
  hour : ℤ
  minute : ℤ
  second : ℤ
  millisecond : ℤ
  fix_quality : ℤ
  satellites : ℤ
  timestamp : ℤ
  valid : Bool

/-- The `memset(&gnss_data, 0, ...)` initial state. -/
def gnssInit : GnssData :=
  { gga := [], latitude := 0, longitude := 0, altitude := 0, heading := 0,
    speed := 0, hdop := 0, day := 0, month := 0, year := 0, hour := 0,
    minute := 0, second := 0, millisecond := 0, fix_quality := 0,
    satellites := 0, timestamp := 0, valid := false }

/-- `update_gnss_data` (src/src/gnssReceiverTask.cpp, lines 92-179): drop the
sentence unless its checksum validates, then dispatch on the sentence type.
A GGA sentence stores the raw sentence (127-character `strncpy` copy), the
parsed fix, the time of day, the timestamp, and `valid := fixType > 0`; a
valid RMC sentence stores the date (year reduced mod 100 into a `uint8_t`)
and the timestamp; a VTG sentence stores heading and speed (converted back
to km/h) and the timestamp. -/
def update_gnss_data (st : GnssData) (cs : List Char) (now : ℤ) : GnssData :=
  if validate_nmea_sentence cs = false then st
  else if is_sentence_type cs ['G', 'G', 'A'] then
    let gga := parseGGASentence cs
    let st1 : GnssData :=
      { st with
        gga := cs.take 127
        latitude := gga.latitude
        longitude := gga.longitude
        altitude := gga.altitude
        fix_quality := u8 gga.fixType
        satellites := u8 gga.satellites
        hdop := gga.hdop }
    let st2 : GnssData :=
      if 6 ≤ gga.timeBuffer.length then
        let hhmmss := atoiZ gga.timeBuffer
        { st1 with
          hour := u8 (hhmmss.tdiv 10000)
          minute := u8 ((hhmmss.tdiv 100).tmod 100)
          second := u8 (hhmmss.tmod 100)
          millisecond := u16 (truncQ ((atofQ gga.timeBuffer - (hhmmss : ℚ)) * 1000)) }
      else st1
    { st2 with
      timestamp := now
      valid := decide (0 < gga.fixType) }
  else if is_sentence_type cs ['R', 'M', 'C'] then
    let rmc := parseRMCSentence cs
    if rmc.valid then
      { st with
        day := u8 rmc.day
        month := u8 rmc.month
        year := u8 (rmc.year.tmod 100)
        timestamp := now }
    else st
  else if is_sentence_type cs ['V', 'T', 'G'] then
    let vtg := parseVTGSentence cs
    { st with
      heading := vtg.direction
      speed := vtg.speed * (18 / 5 : ℚ)
      timestamp := now }
  else st

/-- `gnss_has_valid_fix` (src/src/gnssReceiverTask.cpp, lines 391-407),
with the `gettimeofday` result passed in: the stored flag, freshness of the
stored timestamp within 5 seconds re-computed at read time, and a non-empty
stored GGA sentence. -/
def gnss_has_valid_fix (now : ℤ) (st : GnssData) : Bool :=
  st.valid && decide (now - st.timestamp < 5) && decide (0 < st.gga.length)

/-! ## Queues (ntripClientTask.cpp, gnssReceiverTask.cpp) -/

/-- The GGA-queue forward of `gnss_receiver_task`
(src/src/gnssReceiverTask.cpp, lines 304-312), `GGA_QUEUE_LENGTH = 5`: a
non-blocking `xQueueSend` that appends when there is room; when the queue is
full the code calls `xQueueReset` — emptying the whole queue — and then
inserts the new report. -/
def gga_queue_forward (q : List (List Char)) (r : List Char) : List (List Char) :=
  if q.length < 5 then q ++ [r] else [r]

/-- The RTCM-queue push of `ntrip_client_task`
(src/src/ntripClientTask.cpp, lines 245-261), `RTCM_QUEUE_LENGTH = 10`: a
non-blocking `xQueueSend` that appends when there is room; when the queue is
full the code receives (and discards) the oldest element and sends again. -/
def rtcm_queue_push {α : Type} (q : List α) (c : α) : List α :=
  if q.length < 10 then q ++ [c] else q.drop 1 ++ [c]

/-! ## ntripClientTask.cpp — GGA pacing -/

/-- Events seen by the GGA-pacing logic of `ntrip_client_task`: a successful
connection (src/src/ntripClientTask.cpp, lines 192-196), a `GgaReport` taken
from the queue (lines 267-285), and a poll finding the queue empty (lines
286-298).  Times are `esp_timer_get_time` microseconds. -/
inductive NtripGgaEvent where
  | connect (t : ℤ)
  | recvGga (t : ℤ) (msg : List Char)
  | emptyGga (t : ℤ)
deriving DecidableEq

/-- Pacing state of `ntrip_client_task`: `last_gga_time` (with the -1
"send first GGA immediately" sentinel) and, as observable output, the log of
`sendGGA` transmissions. -/
structure NtripGgaPacing where
  lastGgaTime : ℤ
  sentLog : List (ℤ × List Char)
deriving DecidableEq

/-- One event of the GGA-pacing logic of `ntrip_client_task`
(src/src/ntripClientTask.cpp): on connect, `last_gga_time = -1`; on a
received report, send iff `last_gga_time == -1` or
`(now - last_gga_time) / 1000000 >= gga_interval_sec`, updating
`last_gga_time` on send; on an empty poll, refresh `last_gga_time` whenever
`(now - last_gga_time) / 1000000 >= gga_interval_sec` without sending. -/
def ntrip_gga_step (interval : ℤ) (st : NtripGgaPacing) :
    NtripGgaEvent → NtripGgaPacing
  | .connect _ => { st with lastGgaTime := -1 }
  | .recvGga t msg =>
    if st.lastGgaTime = -1 ∨ interval ≤ (t - st.lastGgaTime).tdiv 1000000 then
      { lastGgaTime := t, sentLog := st.sentLog ++ [(t, msg)] }
    else st
  | .emptyGga t =>
    if interval ≤ (t - st.lastGgaTime).tdiv 1000000 then
      { st with lastGgaTime := t }
    else st

/-- The pacing logic run over a sequence of events from task start
(`last_gga_time = 0`, nothing sent). -/
def ntrip_gga_run (interval : ℤ) (evs : List NtripGgaEvent) : NtripGgaPacing :=
  evs.foldl (ntrip_gga_step interval) { lastGgaTime := 0, sentLog := [] }

/-! ## dataOutputTask.cpp — message date formatting -/

/-- Decimal rendering of a natural number zero-padded to a width, the
behaviour of `%0Nd` for non-negative values. -/
def zeroPad (w : ℕ) (n : ℕ) : List Char :=
  List.replicate (w - (Nat.repr n).length) '0' ++ (Nat.repr n).data

/-- The date prefix `"%04d-%02d-%02d"` of the message built by
`build_telemetry_frame` (src/src/dataOutputTask.cpp, lines 71-77), printed
from the stored position as `2000 + pos->year`, month, day. -/
def telemetry_date_field (year month day : ℤ) : List Char :=
  zeroPad 4 (2000 + year).toNat ++ '-' :: zeroPad 2 month.toNat
    ++ '-' :: zeroPad 2 day.toNat

/-! ## Example sentences from the specification -/

/-- Example 1 of the specification (a GGA sentence). -/
def gga1 : List Char :=
  "$GPGGA,123519,4807.038,N,01131.000,E,1,08,0.9,545.4,M,46.9,M,,*47".data

/-- Example 2 of the specification (an RMC sentence). -/
def rmc1 : List Char :=
  "$GPRMC,123519,A,4807.038,N,01131.000,E,022.4,084.4,230394,003.1,W*6A".data

/-- Example 3 of the specification (a VTG sentence). -/
def vtg1 : List Char :=
  "$GPVTG,054.7,T,034.4,M,005.5,N,010.2,K*48".data

/-! ## Supporting lemmas for the frame codec -/

theorem stuff_byte_eq (b : ℕ) (out : List ℕ) : stuff_byte b out = out ++ stuffOne b := by
  unfold stuff_byte stuffOne
  split <;> rfl

theorem foldl_stuff_byte (body : List ℕ) :
    ∀ init : List ℕ,
      body.foldl (fun acc b => stuff_byte b acc) init = init ++ body.flatMap stuffOne := by
  induction body with
  | nil => intro init; simp
  | cons b rest ih =>
    intro init
    rw [List.foldl_cons, stuff_byte_eq, ih, List.flatMap_cons, List.append_assoc]

theorem destuffBytes_cons_ne (a : ℕ) (l : List ℕ) (h : a ≠ FRAME_DLE) :
    destuffBytes (a :: l) = a :: destuffBytes l := by
  cases l with
  | nil => rfl
  | cons b rest => simp [destuffBytes, h]

theorem destuffBytes_flatMap_stuffOne (xs : List ℕ) :
    destuffBytes (xs.flatMap stuffOne) = xs := by
  induction xs with
  | nil => rfl
  | cons x rest ih =>
    by_cases hx : x = FRAME_SOH ∨ x = FRAME_CAN ∨ x = FRAME_DLE
    · simp only [List.flatMap_cons, stuffOne, if_pos hx, List.cons_append, List.nil_append,
        destuffBytes, if_pos rfl]
      exact congrArg (x :: ·) ih
    · have hne : x ≠ FRAME_DLE := by
        intro h; exact hx (Or.inr (Or.inr h))
      simp only [List.flatMap_cons, stuffOne, if_neg hx, List.cons_append, List.nil_append]
      rw [destuffBytes_cons_ne x _ hne, ih]

theorem crcBitStep_lt (c : ℕ) : crcBitStep c < 65536 := by
  unfold crcBitStep
  split <;> exact Nat.mod_lt _ (by norm_num)

theorem foldl_crcBitStep_lt (l : List ℕ) :
    ∀ c : ℕ, c < 65536 → l.foldl (fun c _ => crcBitStep c) c < 65536 := by
  induction l with
  | nil => intro c hc; exact hc
  | cons a rest ih => intro c _; exact ih (crcBitStep c) (crcBitStep_lt c)

theorem crcByteStep_lt (crc b : ℕ) : crcByteStep crc b < 65536 := by
  unfold crcByteStep
  exact foldl_crcBitStep_lt _ _ (Nat.mod_lt _ (by norm_num))

theorem foldl_crcByteStep_lt (l : List ℕ) :
    ∀ c : ℕ, c < 65536 → l.foldl crcByteStep c < 65536 := by
  induction l with
  | nil => intro c hc; exact hc
  | cons a rest ih => intro c _; exact ih (crcByteStep c a) (crcByteStep_lt c a)

theorem calculateCRC16_lt (data : List ℕ) : calculateCRC16 data < 65536 := by
  unfold calculateCRC16
  exact foldl_crcByteStep_lt data 0xFFFF (by norm_num)

theorem hi_lo_recombine (n : ℕ) (h : n < 65536) :
    256 * ((n >>> 8) &&& 0xFF) + (n &&& 0xFF) = n := by
  have h8 : (n >>> 8) = n / 256 := by
    rw [Nat.shiftRight_eq_div_pow]
  have hff : ∀ m : ℕ, m &&& 0xFF = m % 256 := by
    intro m
    have := Nat.and_pow_two_sub_one_eq_mod m 8
    norm_num at this
    exact this
  rw [h8, hff, hff]
  omega

theorem foldl_append_stuffOne (body : List ℕ) :
    ∀ init : List ℕ,
      List.foldl (fun acc b => acc ++ stuffOne b) init body = init ++ body.flatMap stuffOne := by
  induction body with
  | nil => intro init; simp
  | cons b rest ih =>
    intro init
    rw [List.foldl_cons, ih, List.flatMap_cons, List.append_assoc]

theorem flatMap_stuffOne_append (xs ys : List ℕ) :
    (xs ++ ys).flatMap stuffOne = xs.flatMap stuffOne ++ ys.flatMap stuffOne := by
  rw [List.flatMap_append]

/-- Claim C2: for every message body, the frame built by
`build_telemetry_frame` is SOH, the stuffed body, the stuffed CRC-16 high
byte, the stuffed CRC-16 low byte, CAN, where the CRC is CRC-16/CCITT-FALSE
(polynomial 0x1021, initial value 0xFFFF, no reflection, no final xor —
witnessed by the empty-input value 0xFFFF and the standard "123456789" check
value 0x29B1) over the unstuffed body only; de-stuffing the frame contents
recovers exactly the original body followed by the two CRC bytes, whose
recombination equals the CRC of the recovered body. -/
theorem build_telemetry_frame_roundtrip (body : List ℕ) :
    build_telemetry_frame body =
      FRAME_SOH ::
        ((body.flatMap stuffOne
            ++ stuffOne ((calculateCRC16 body >>> 8) &&& 0xFF)
            ++ stuffOne (calculateCRC16 body &&& 0xFF))
          ++ [FRAME_CAN])
    ∧ destuffBytes (((build_telemetry_frame body).drop 1).dropLast)
        = body ++ [(calculateCRC16 body >>> 8) &&& 0xFF, calculateCRC16 body &&& 0xFF]
    ∧ 256 * ((calculateCRC16 body >>> 8) &&& 0xFF) + (calculateCRC16 body &&& 0xFF)
        = calculateCRC16 body
    ∧ calculateCRC16 [] = 0xFFFF
    ∧ calculateCRC16 [0x31, 0x32, 0x33, 0x34, 0x35, 0x36, 0x37, 0x38, 0x39] = 0x29B1 := by
  have hstruct : build_telemetry_frame body =
      FRAME_SOH ::
        ((body.flatMap stuffOne
            ++ stuffOne ((calculateCRC16 body >>> 8) &&& 0xFF)
            ++ stuffOne (calculateCRC16 body &&& 0xFF))
          ++ [FRAME_CAN]) := by
    unfold build_telemetry_frame
    simp only [stuff_byte_eq, foldl_append_stuffOne]
    simp [List.append_assoc]
  refine ⟨hstruct, ?_, hi_lo_recombine _ (calculateCRC16_lt body), by decide, by decide⟩
  rw [hstruct]
  have hpayload :
      (body.flatMap stuffOne
          ++ stuffOne ((calculateCRC16 body >>> 8) &&& 0xFF)
          ++ stuffOne (calculateCRC16 body &&& 0xFF))
        = (body ++ [(calculateCRC16 body >>> 8) &&& 0xFF, calculateCRC16 body &&& 0xFF]).flatMap
            stuffOne := by
    rw [flatMap_stuffOne_append]
    simp [List.flatMap_cons, List.append_assoc]
  rw [List.drop_one, List.tail_cons, List.dropLast_concat, hpayload,
    destuffBytes_flatMap_stuffOne]

/-! ## Characterisation of the parser scan loops -/

theorem atofQ_nil : atofQ [] = 0 := by
  norm_num [atofQ, atofParts, parseDigitsAux]

theorem atoiZ_nil : atoiZ [] = 0 := by
  norm_num [atoiZ, parseDigitsAux]

theorem ggaField_of_ge (d : GGAData) (i : ℕ) (t : List Char) (h : 14 ≤ i) :
    ggaField d i t = d := by
  unfold ggaField
  repeat rw [if_neg (by omega)]

theorem ggaScan_of_ge (toks : List (List Char)) :
    ∀ i d, 14 ≤ i → ggaScan toks i d = d := by
  induction toks with
  | nil => intro i d _; rfl
  | cons t ts ih =>
    intro i d h
    show ggaScan ts (i + 1) (ggaField d i t) = d
    rw [ggaField_of_ge d i t h, ih (i + 1) d (by omega)]

theorem ggaScan_eq (toks : List (List Char)) :
    ggaScan toks 0 ggaInit =
      { latitude := atofQ (toks.getD 2 []),
        longitude := atofQ (toks.getD 4 []),
        altitude := atofQ (toks.getD 9 []),
        fixType := atoiZ (toks.getD 6 []),
        satellites := atoiZ (toks.getD 7 []),
        hdop := atofQ (toks.getD 8 []),
        ageOfDifferentialData := atofQ (toks.getD 13 []),
        latDirection := (toks.getD 3 []).headD (Char.ofNat 0),
        lonDirection := (toks.getD 5 []).headD (Char.ofNat 0),
        timeBuffer := (toks.getD 1 []).take 10 } := by
  rcases toks with _ | ⟨t0, _ | ⟨t1, _ | ⟨t2, _ | ⟨t3, _ | ⟨t4, _ | ⟨t5, _ | ⟨t6, _ | ⟨t7,
    _ | ⟨t8, _ | ⟨t9, _ | ⟨t10, _ | ⟨t11, _ | ⟨t12, _ | ⟨t13, rest⟩⟩⟩⟩⟩⟩⟩⟩⟩⟩⟩⟩⟩⟩ <;>
    simp [ggaScan, ggaField, ggaInit, ggaScan_of_ge, atofQ_nil, atoiZ_nil]

theorem rmcScan_of_ge (toks : List (List Char)) :
    ∀ i st, 10 ≤ i → rmcScan toks i st = st := by
  induction toks with
  | nil => intro i st _; rfl
  | cons t ts ih =>
    intro i st h
    show rmcScan ts (i + 1)
      (if i = 2 then { st with valid := if t = ['A'] then true else st.valid }
       else if i = 9 then { st with dateBuffer := t.take 6 }
       else st) = st
    rw [if_neg (by omega), if_neg (by omega), ih (i + 1) st (by omega)]

theorem rmcScan_eq (toks : List (List Char)) :
    rmcScan toks 0 { valid := false, dateBuffer := [] } =
      { valid := if toks.getD 2 [] = ['A'] then true else false,
        dateBuffer := (toks.getD 9 []).take 6 } := by
  rcases toks with _ | ⟨t0, _ | ⟨t1, _ | ⟨t2, _ | ⟨t3, _ | ⟨t4, _ | ⟨t5, _ | ⟨t6, _ | ⟨t7,
    _ | ⟨t8, _ | ⟨t9, rest⟩⟩⟩⟩⟩⟩⟩⟩⟩⟩ <;>
    simp [rmcScan, rmcScan_of_ge]

theorem vtgScan_speed (toks : List (List Char)) :
    ∀ i d prev,
      (vtgScan toks i d prev).speed =
        ((lastKPrev prev toks).map (fun p => atofQ p / (18 / 5 : ℚ))).getD d.speed := by
  induction toks with
  | nil => intro i d prev; rfl
  | cons t ts ih =>
    intro i d prev
    simp only [vtgScan]
    rw [ih, lastKPrev]
    rcases hK : lastKPrev (some t) ts with _ | p
    · by_cases hc : t.headD (Char.ofNat 0) = 'K' ∧ prev.isSome = true
      · rcases prev with _ | q
        · simp at hc
        · rw [List.headD_eq_head?_getD] at hc
          simp [hc.1]
      · rw [List.headD_eq_head?_getD] at hc
        simp [hc]
    · simp

theorem vtgScan_direction_of_ge (toks : List (List Char)) :
    ∀ i d prev, 3 ≤ i → (vtgScan toks i d prev).direction = d.direction := by
  induction toks with
  | nil => intro i d prev _; rfl
  | cons t ts ih =>
    intro i d prev h
    simp only [vtgScan]
    rw [ih _ _ _ (by omega)]
    simp only
    rw [if_neg (by omega), if_neg (by omega)]

theorem vtgScan_direction (toks : List (List Char)) :
    (vtgScan toks 0 { speed := 0, direction := 0 } none).direction =
      if 3 ≤ toks.length ∧ toks.getD 2 [] ≠ ['T'] then 0
      else atofQ (toks.getD 1 []) := by
  rcases toks with _ | ⟨t0, _ | ⟨t1, _ | ⟨t2, rest⟩⟩⟩
  · simp [vtgScan, atofQ_nil]
  · simp [vtgScan, atofQ_nil]
  · simp [vtgScan]
  · rw [show ∀ a b c (l : List (List Char)), vtgScan (a :: b :: c :: l) 0
        { speed := 0, direction := 0 } none
        = vtgScan l 3 (vtgScan [a, b, c] 0 { speed := 0, direction := 0 } none)
            (some c) from fun a b c l => rfl,
      vtgScan_direction_of_ge rest 3 _ (some t2) (by omega)]
    by_cases hT : t2 = ['T'] <;>
      simp [vtgScan, hT, List.getD, Nat.succ_le_succ, show (3:ℕ) ≤ rest.length + 3 by omega]

/-! ## Claim C4 — RTCM ring queue -/

theorem foldl_rtcm_queue_push {α : Type} (cs : List α) :
    ∀ q : List α, q.length = 10 →
      List.foldl rtcm_queue_push q cs = (q ++ cs).drop cs.length := by
  induction cs with
  | nil => intro q _; simp
  | cons c rest ih =>
    intro q h
    have hq : rtcm_queue_push q c = q.drop 1 ++ [c] := by
      unfold rtcm_queue_push
      rw [if_neg (by omega)]
    have hlen : (q.drop 1 ++ [c]).length = 10 := by
      simp [List.length_drop, h]
    rw [List.foldl_cons, hq, ih _ hlen]
    rcases q with _ | ⟨a, q2⟩
    · simp at h
    · simp [List.append_assoc]

/-- Claim C4: a push into the full capacity-10 RTCM queue receives (hence
discards) exactly the oldest chunk and appends the new one; consequently any
sequence of pushes into a full queue leaves the most recent 10 chunks in
arrival order, the oldest ones dropped. -/
theorem rtcm_queue_push_drops_oldest {α : Type} (q : List α) (cs : List α)
    (h : q.length = 10) :
    (∀ c : α, rtcm_queue_push q c = q.drop 1 ++ [c])
    ∧ List.foldl rtcm_queue_push q cs = (q ++ cs).drop cs.length := by
  constructor
  · intro c
    unfold rtcm_queue_push
    rw [if_neg (by omega)]
  · exact foldl_rtcm_queue_push cs q h

theorem rtcm_queue_push_drops_oldest_witness :
    List.foldl rtcm_queue_push [0, 1, 2, 3, 4, 5, 6, 7, 8, 9] [10, 11, 12]
      = [3, 4, 5, 6, 7, 8, 9, 10, 11, 12] :=
  ((rtcm_queue_push_drops_oldest [0, 1, 2, 3, 4, 5, 6, 7, 8, 9] [10, 11, 12]
      (by decide)).2).trans (by decide)

/-! ## Claim C8 — GGA queue overwrite -/

/-- Claim C8 counterexample: with the capacity-5 GGA queue full, the forward
does not evict only the oldest entry — it clears the whole queue
(`xQueueReset`) and inserts the new report alone, so the previously queued
reports "g2".."g5" are all gone. -/
theorem gga_queue_forward_not_evict_oldest :
    gga_queue_forward ["g1".data, "g2".data, "g3".data, "g4".data, "g5".data] "g6".data
        = ["g6".data]
    ∧ gga_queue_forward ["g1".data, "g2".data, "g3".data, "g4".data, "g5".data] "g6".data
        ≠ ["g2".data, "g3".data, "g4".data, "g5".data, "g6".data]
    ∧ ¬ "g2".data ∈
        gga_queue_forward ["g1".data, "g2".data, "g3".data, "g4".data, "g5".data] "g6".data := by
  decide

/-- Claim C8 amended: when a forward is attempted and the capacity-5 GGA
queue is full, the worker resets the queue — discarding every queued entry —
and inserts the new report, so only the newest report remains
(latest-position-wins, non-blocking), and the queue stays within bound. -/
theorem gga_queue_forward_full_resets (q : List (List Char)) (r : List Char)
    (h : q.length = 5) :
    gga_queue_forward q r = [r] ∧ (gga_queue_forward q r).length ≤ 5 := by
  unfold gga_queue_forward
  rw [if_neg (by omega)]
  exact ⟨rfl, by simp⟩

theorem gga_queue_forward_full_resets_witness :
    gga_queue_forward ["a".data, "b".data, "c".data, "d".data, "e".data] "f".data
      = ["f".data] :=
  (gga_queue_forward_full_resets ["a".data, "b".data, "c".data, "d".data, "e".data]
      "f".data (by decide)).1

/-! ## Claim C5 — GGA pacing of the NTRIP relay -/

/-- Claim C5 evaluated at a failing trace: with a 120-second interval, after
a successful connect at t = 200 s of uptime (`last_gga_time = -1`), one loop
iteration that finds the GGA queue empty at t = 200.1 s refreshes
`last_gga_time` without transmitting anything, so the first `GgaReport` of
the connection, arriving at t = 201 s, is silently dropped — nothing is ever
sent, although the claim requires the first report after connecting to be
transmitted immediately. -/
theorem ntrip_gga_first_report_dropped :
    ntrip_gga_run 120
        [NtripGgaEvent.connect 200000000,
         NtripGgaEvent.emptyGga 200100000,
         NtripGgaEvent.recvGga 201000000 ['g']]
      = { lastGgaTime := 200100000, sentLog := [] } := by
  decide

/-! ## Claim C3 — checksum computation and sentence validation -/

/-- Claim C3 counterexample: `validate_nmea_sentence` accepts the sentence
`"$05*5x"`, whose '*' is followed by only one hexadecimal character ('5',
then 'x'): `sscanf "%2hhx"` parses the single digit 5, which equals the
checksum 0x30 xor 0x35 = 5.  It likewise accepts the sentence
`'$' 0x05 '*' '+' '5'`, where the characters after the '*' are a sign and a
single digit, parsed by `%2hhx` to 5 = the checksum of the 0x05 body byte.
The spec's wording (`validate_spec_twohex`) requires two hexadecimal
characters after the '*' and rejects both. -/
theorem validate_nmea_sentence_one_hex_digit :
    validate_nmea_sentence "$05*5x".data = true
    ∧ validate_spec_twohex "$05*5x".data = false
    ∧ validate_nmea_sentence ['$', Char.ofNat 5, '*', '+', '5'] = true
    ∧ validate_spec_twohex ['$', Char.ofNat 5, '*', '+', '5'] = false := by
  decide

theorem checksumLoop_eq (l : List Char) :
    ∀ acc : ℕ,
      checksumLoop l acc =
        (l.takeWhile checksumKeep).foldl (fun a c => a ^^^ c.toNat) acc := by
  induction l with
  | nil => intro acc; rfl
  | cons c rest ih =>
    intro acc
    show (if c.toNat = 0 ∨ c = '*' ∨ c = '\r' ∨ c = '\n' then acc
          else checksumLoop rest (acc ^^^ c.toNat)) = _
    by_cases hc : c.toNat = 0 ∨ c = '*' ∨ c = '\r' ∨ c = '\n'
    · have hpc : checksumKeep c = false := by rw [checksumKeep, if_pos hc]
      rw [if_pos hc, List.takeWhile_cons, hpc]
      simp
    · have hpc : checksumKeep c = true := by rw [checksumKeep, if_neg hc]
      rw [if_neg hc, ih, List.takeWhile_cons, hpc]
      simp

theorem calculate_nmea_checksum_eq (cs : List Char) :
    calculate_nmea_checksum cs = (nmeaBody cs).foldl (fun a c => a ^^^ c.toNat) 0 := by
  unfold calculate_nmea_checksum nmeaBody
  rw [checksumLoop_eq]

theorem foldl_xor_lt (l : List Char) :
    ∀ acc : ℕ, acc < 256 → (∀ c ∈ l, c.toNat < 256) →
      l.foldl (fun a c => a ^^^ c.toNat) acc < 256 := by
  induction l with
  | nil => intro acc h _; exact h
  | cons c rest ih =>
    intro acc h hm
    rw [List.foldl_cons]
    exact ih _ (Nat.xor_lt_two_pow (n := 8) h (hm c (by simp)))
      (fun x hx => hm x (by simp [hx]))

theorem strchrStar_some_iff (cs suf : List Char) :
    strchrStar cs = some suf ↔
      ∃ pre post, cs = pre ++ '*' :: post ∧ '*' ∉ pre ∧ suf = '*' :: post := by
  induction cs generalizing suf with
  | nil =>
    simp only [strchrStar]
    constructor
    · intro h; cases h
    · rintro ⟨pre, post, heq, -, -⟩
      exact absurd heq (by simp)
  | cons c rest ih =>
    by_cases hc : c = '*'
    · subst hc
      simp only [strchrStar, if_pos rfl]
      constructor
      · intro h
        exact ⟨[], rest, rfl, by simp, (Option.some_inj.mp h).symm⟩
      · rintro ⟨pre, post, heq, hpre, hsuf⟩
        rcases pre with _ | ⟨x, pre2⟩
        · simp only [List.nil_append] at heq
          rw [hsuf, heq]
          simp
        · have hx : x = '*' := (List.cons_eq_cons.mp heq).1.symm
          exact absurd (by simp [hx] : '*' ∈ x :: pre2) hpre
    · simp only [strchrStar, if_neg hc, ih]
      constructor
      · rintro ⟨pre, post, heq, hpre, hsuf⟩
        refine ⟨c :: pre, post, by simp [heq], ?_, hsuf⟩
        intro hmem
        rcases List.mem_cons.mp hmem with h | h
        · exact hc h.symm
        · exact hpre h
      · rintro ⟨pre, post, heq, hpre, hsuf⟩
        rcases pre with _ | ⟨x, pre2⟩
        · have : c = '*' := (List.cons_eq_cons.mp heq).1
          exact absurd this hc
        · obtain ⟨hxc, hrest⟩ := List.cons_eq_cons.mp heq
          refine ⟨pre2, post, hrest, fun hmem => hpre (by simp [hmem]), hsuf⟩

/-- Claim C3 (amended): `calculate_nmea_checksum` is the xor of all
characters strictly between the leading '$' and the first '*' (or CR, LF,
NUL, or the end of the sentence), an 8-bit value whenever the input is a
byte string; and `validate_nmea_sentence` accepts a sentence iff it begins
with '$', contains a '*' followed by at least two further characters (of any
kind — two hexadecimal characters are not required), and the characters
after the first '*' parse under `%2hhx` (optional whitespace, then an
optionally signed hexadecimal number of at most two characters including the
sign, case-insensitive, wrapped into 8 bits — see `sscanf_hh_hex`) to a
value equal to the computed checksum. -/
theorem validate_nmea_sentence_spec (cs : List Char) :
    (calculate_nmea_checksum cs = (nmeaBody cs).foldl (fun a c => a ^^^ c.toNat) 0)
    ∧ ((∀ c ∈ cs, c.toNat < 256) → calculate_nmea_checksum cs < 256)
    ∧ (validate_nmea_sentence cs = true ↔
        cs.head? = some '$'
          ∧ ∃ pre post v, cs = pre ++ '*' :: post ∧ '*' ∉ pre
              ∧ 2 ≤ post.length ∧ sscanf_hh_hex post = some v
              ∧ v = calculate_nmea_checksum cs) := by
  refine ⟨calculate_nmea_checksum_eq cs, ?_, ?_⟩
  · intro hm
    rw [calculate_nmea_checksum_eq]
    refine foldl_xor_lt _ 0 (by norm_num) ?_
    intro c hcmem
    refine hm c ?_
    have h1 : List.Sublist (nmeaBody cs) (if cs.head? = some '$' then cs.drop 1 else cs) :=
      List.takeWhile_sublist _
    have h2 : List.Sublist (if cs.head? = some '$' then cs.drop 1 else cs) cs := by
      split
      · exact List.drop_sublist 1 cs
      · exact List.Sublist.refl cs
    exact (h1.trans h2).mem hcmem
  · rcases cs with _ | ⟨c0, rest⟩
    · constructor
      · intro h; cases h
      · rintro ⟨h, -⟩; cases h
    · by_cases h0 : c0 = '$'
      · subst h0
        show (validate_nmea_sentence ('$' :: rest) = true) ↔ _
        simp only [validate_nmea_sentence]
        rw [if_neg (by simp)]
        rcases hast : strchrStar ('$' :: rest) with _ | ast
        · constructor
          · intro h; cases h
          · rintro ⟨-, pre, post, v, heq, hpre, -, -, -⟩
            have := (strchrStar_some_iff ('$' :: rest) ('*' :: post)).mpr
              ⟨pre, post, heq, hpre, rfl⟩
            rw [hast] at this
            cases this
        · obtain ⟨pre0, post0, heq0, hpre0, hast0⟩ :=
            (strchrStar_some_iff ('$' :: rest) ast).mp hast
          subst hast0
          dsimp only
          by_cases hlen : ('*' :: post0).length < 3
          · rw [if_pos hlen]
            constructor
            · intro h; cases h
            · rintro ⟨-, pre, post, v, heq, hpre, hplen, -, -⟩
              have := (strchrStar_some_iff ('$' :: rest) ('*' :: post)).mpr
                ⟨pre, post, heq, hpre, rfl⟩
              rw [hast] at this
              have hpp : post = post0 := by
                have := Option.some_inj.mp this
                exact (List.cons_eq_cons.mp this).2.symm
              subst hpp
              simp at hlen
              omega
          · rw [if_neg hlen]
            have hdrop : ('*' :: post0).drop 1 = post0 := rfl
            rw [hdrop]
            rcases hs : sscanf_hh_hex post0 with _ | v0
            · constructor
              · intro h; cases h
              · rintro ⟨-, pre, post, v, heq, hpre, -, hsc, -⟩
                have := (strchrStar_some_iff ('$' :: rest) ('*' :: post)).mpr
                  ⟨pre, post, heq, hpre, rfl⟩
                rw [hast] at this
                have hpp : post = post0 :=
                  (List.cons_eq_cons.mp (Option.some_inj.mp this)).2.symm
                subst hpp
                rw [hs] at hsc
                cases hsc
            · simp only [decide_eq_true_eq]
              constructor
              · intro hv
                refine ⟨rfl, pre0, post0, v0, heq0, hpre0, by simp at hlen; omega, hs, hv⟩
              · rintro ⟨-, pre, post, v, heq, hpre, -, hsc, hveq⟩
                have := (strchrStar_some_iff ('$' :: rest) ('*' :: post)).mpr
                  ⟨pre, post, heq, hpre, rfl⟩
                rw [hast] at this
                have hpp : post = post0 :=
                  (List.cons_eq_cons.mp (Option.some_inj.mp this)).2.symm
                subst hpp
                rw [hs] at hsc
                rw [Option.some_inj.mp hsc]
                exact hveq
      · show (validate_nmea_sentence (c0 :: rest) = true) ↔ _
        simp only [validate_nmea_sentence]
        rw [if_pos (by simp [h0])]
        constructor
        · intro h; cases h
        · rintro ⟨hh, -⟩
          exact absurd (Option.some_inj.mp hh) h0

theorem validate_nmea_sentence_spec_witness :
    validate_nmea_sentence gga1 = true ∧ calculate_nmea_checksum gga1 < 256 :=
  ⟨by decide, (validate_nmea_sentence_spec gga1).2.1 (by decide)⟩

/-! ## Claim C9 — validity of the shared position state -/

theorem update_gnss_data_valid_fix (st : GnssData) (cs : List Char) (now : ℤ)
    (hfix : (parseGGASentence cs).fixType ≤ 255)
    (hinv : st.valid = true → 0 < st.fix_quality) :
    (update_gnss_data st cs now).valid = true →
      0 < (update_gnss_data st cs now).fix_quality := by
  unfold update_gnss_data
  by_cases hv : validate_nmea_sentence cs = false
  · rw [if_pos hv]; exact hinv
  · rw [if_neg hv]
    by_cases hg : is_sentence_type cs ['G', 'G', 'A'] = true
    · rw [if_pos hg]
      dsimp only
      intro hval
      rw [decide_eq_true_eq] at hval
      rw [apply_ite GnssData.fix_quality]
      dsimp only
      rw [ite_self, u8, Int.emod_eq_of_lt (by omega) (by omega)]
      exact hval
    · rw [if_neg hg]
      by_cases hr : is_sentence_type cs ['R', 'M', 'C'] = true
      · rw [if_pos hr]
        dsimp only
        by_cases hrv : (parseRMCSentence cs).valid = true
        · rw [if_pos hrv]; exact hinv
        · rw [if_neg hrv]; exact hinv
      · rw [if_neg hr]
        by_cases hvt : is_sentence_type cs ['V', 'T', 'G'] = true
        · rw [if_pos hvt]; exact hinv
        · rw [if_neg hvt]; exact hinv

theorem foldl_update_gnss_data_valid_fix (evs : List (List Char × ℤ)) :
    ∀ st : GnssData,
      (∀ p ∈ evs, (parseGGASentence p.1).fixType ≤ 255) →
      (st.valid = true → 0 < st.fix_quality) →
      ((evs.foldl (fun a p => update_gnss_data a p.1 p.2) st).valid = true →
        0 < (evs.foldl (fun a p => update_gnss_data a p.1 p.2) st).fix_quality) := by
  induction evs with
  | nil => intro st _ hinv; exact hinv
  | cons p rest ih =>
    intro st hall hinv
    exact ih _ (fun q hq => hall q (by simp [hq]))
      (update_gnss_data_valid_fix st p.1 p.2 (hall p (by simp)) hinv)

/-- Claim C9: in every state reachable from the zeroed shared position state
by validated sentence updates (with the parsed GGA fix type within the
`uint8_t` range, as the fix-quality enum 0..8 always is), a read through
`gnss_has_valid_fix` reports true only if the stored fix quality is positive
and the data is fresher than the 5-second staleness threshold; the
staleness predicate is re-derived at read time from the stored timestamp,
so the same state read 5 or more seconds after its timestamp always reports
false, whatever its stored flag says. -/
theorem gnss_has_valid_fix_spec (evs : List (List Char × ℤ)) (now : ℤ)
    (hfix : ∀ p ∈ evs, (parseGGASentence p.1).fixType ≤ 255) :
    (gnss_has_valid_fix now
        (evs.foldl (fun a p => update_gnss_data a p.1 p.2) gnssInit) = true →
      0 < (evs.foldl (fun a p => update_gnss_data a p.1 p.2) gnssInit).fix_quality
        ∧ now - (evs.foldl (fun a p => update_gnss_data a p.1 p.2) gnssInit).timestamp < 5)
    ∧ (∀ (st : GnssData) (t : ℤ), 5 ≤ t - st.timestamp →
        gnss_has_valid_fix t st = false) := by
  constructor
  · intro h
    unfold gnss_has_valid_fix at h
    simp only [Bool.and_eq_true, decide_eq_true_eq] at h
    refine ⟨?_, h.1.2⟩
    refine foldl_update_gnss_data_valid_fix evs gnssInit hfix ?_ h.1.1
    intro hv
    simp [gnssInit] at hv
  · intro st t ht
    unfold gnss_has_valid_fix
    have hlt : ¬(t - st.timestamp < 5) := by omega
    simp [hlt]

theorem gnss_has_valid_fix_spec_witness :
    0 < (([((gga1 : List Char), (100 : ℤ))]).foldl
          (fun a p => update_gnss_data a p.1 p.2) gnssInit).fix_quality
    ∧ (102 : ℤ) - (([((gga1 : List Char), (100 : ℤ))]).foldl
          (fun a p => update_gnss_data a p.1 p.2) gnssInit).timestamp < 5 :=
  (gnss_has_valid_fix_spec [((gga1 : List Char), (100 : ℤ))] 102 (by decide)).1 (by decide)

/-! ## Claim C10 — year truncation in state and telemetry -/

theorem is_sentence_type_rmc_not_gga (cs : List Char)
    (h : is_sentence_type cs ['R', 'M', 'C'] = true) :
    is_sentence_type cs ['G', 'G', 'A'] = false := by
  rcases cs with _ | ⟨c0, rest⟩
  · cases h
  · unfold is_sentence_type at h ⊢
    dsimp only at h ⊢
    by_cases h0 : c0 ≠ '$'
    · rw [if_pos h0] at h; cases h
    · rw [if_neg h0] at h ⊢
      by_cases htal : ((c0 :: rest).drop 1).take 2 = ['G', 'P']
          ∨ ((c0 :: rest).drop 1).take 2 = ['G', 'N']
      · rw [if_pos htal] at h ⊢
        rw [decide_eq_true_eq] at h
        rw [decide_eq_false_iff_not]
        intro hg
        have : (['R', 'M', 'C'] : List Char) = ['G', 'G', 'A'] := by
          rw [← h, ← hg]
          rfl
        simp at this
      · rw [if_neg htal] at h; cases h

/-- Claim C10: a valid RMC update stores only `year mod 100` (cast to
`uint8_t`) into the shared position state, and the telemetry message prints
the year as `2000 + storedYear`; since `2000 + (Y mod 100) = Y + 100` for any
pre-2000 year `Y ≥ 1980` accepted via the RMC Y2K pivot, such dates are
emitted as the corresponding 20xx year — in particular the example RMC
sentence with year 1994 is stored as 94 and printed as 2094. -/
theorem update_rmc_year_mod100 (st : GnssData) (cs : List Char) (now : ℤ)
    (hval : validate_nmea_sentence cs = true)
    (hrmc : is_sentence_type cs ['R', 'M', 'C'] = true)
    (hv : (parseRMCSentence cs).valid = true) :
    (update_gnss_data st cs now).year = u8 ((parseRMCSentence cs).year.tmod 100)
    ∧ (∀ y : ℤ, 1980 ≤ y → y < 2000 → 2000 + u8 (y.tmod 100) = y + 100)
    ∧ (update_gnss_data gnssInit rmc1 0).year = 94
    ∧ telemetry_date_field 94 3 23 = "2094-03-23".data := by
  refine ⟨?_, ?_, by decide, by decide⟩
  · unfold update_gnss_data
    rw [if_neg (by simp [hval]), if_neg (by simp [is_sentence_type_rmc_not_gga cs hrmc]),
      if_pos hrmc]
    dsimp only
    rw [if_pos hv]
  · intro y h1 h2
    have hm : y.tmod 100 = y % 100 := Int.tmod_eq_emod (by omega) (by omega)
    rw [u8, hm]
    have h3 : 0 ≤ y % 100 := Int.emod_nonneg y (by norm_num)
    have h4 : y % 100 < 100 := Int.emod_lt_of_pos y (by norm_num)
    rw [Int.emod_eq_of_lt h3 (by omega)]
    omega

theorem update_rmc_year_mod100_witness :
    (update_gnss_data gnssInit rmc1 0).year = 94 :=
  (update_rmc_year_mod100 gnssInit rmc1 0 (by decide) (by decide) (by decide)).2.2.1

/-! ## Claim C1 — GGA coordinate conversion -/

theorem atofQ_eval (cs : List Char) (b : Bool) (n f k : ℕ)
    (h : atofParts cs = ⟨b, n, f, k⟩) :
    atofQ cs =
      if b then -((n : ℚ) + (f : ℚ) / ((10 : ℚ) ^ k))
      else ((n : ℚ) + (f : ℚ) / ((10 : ℚ) ^ k)) := by
  show (if (atofParts cs).neg
        then -(((atofParts cs).ip : ℚ) + ((atofParts cs).fp : ℚ) / ((10 : ℚ) ^ (atofParts cs).fd))
        else (((atofParts cs).ip : ℚ) + ((atofParts cs).fp : ℚ) / ((10 : ℚ) ^ (atofParts cs).fd)))
      = _
  rw [h]

theorem atofQ_nonneg (cs : List Char) (h : (atofParts cs).neg = false) :
    0 ≤ atofQ cs := by
  show (0 : ℚ) ≤
    if (atofParts cs).neg
    then -(((atofParts cs).ip : ℚ) + ((atofParts cs).fp : ℚ) / ((10 : ℚ) ^ (atofParts cs).fd))
    else (((atofParts cs).ip : ℚ) + ((atofParts cs).fp : ℚ) / ((10 : ℚ) ^ (atofParts cs).fd))
  rw [h]
  simp only [Bool.false_eq_true, if_false]
  positivity

theorem truncQ_eq_floor (q : ℚ) (h : 0 ≤ q) : truncQ q = ⌊q⌋ := by
  rw [truncQ, if_pos h]

/-- Claim C1: `parseGGASentence` converts each raw DDDMM.mmmm coordinate
exactly once, after all fields are scanned, as
`degrees = floor(raw/100)`, `minutes = raw - degrees*100`,
`decimal = degrees + minutes/60`, negating the latitude iff the latitude
direction field is 'S' and the longitude iff the longitude direction field
is 'W' (stated for raw fields in the unsigned DDDMM.mmmm format, i.e. not
starting with a minus sign, where the C `(int)` truncation is the floor);
and on the specification's example sentence it yields
latitude = 48.1173, longitude = 691/60 (≈ 11.516667), fixType = 1,
satellites = 8, hdop = 0.9. -/
theorem parseGGASentence_spec (cs : List Char)
    (hlat : (atofParts ((nmeaTokens cs).getD 2 [])).neg = false)
    (hlon : (atofParts ((nmeaTokens cs).getD 4 [])).neg = false) :
    ((parseGGASentence cs).latitude =
      (if ((nmeaTokens cs).getD 3 []).headD (Char.ofNat 0) = 'S' then (-1 : ℚ) else 1) *
        ((⌊atofQ ((nmeaTokens cs).getD 2 []) / 100⌋ : ℚ)
          + (atofQ ((nmeaTokens cs).getD 2 [])
              - (⌊atofQ ((nmeaTokens cs).getD 2 []) / 100⌋ : ℚ) * 100) / 60))
    ∧ ((parseGGASentence cs).longitude =
      (if ((nmeaTokens cs).getD 5 []).headD (Char.ofNat 0) = 'W' then (-1 : ℚ) else 1) *
        ((⌊atofQ ((nmeaTokens cs).getD 4 []) / 100⌋ : ℚ)
          + (atofQ ((nmeaTokens cs).getD 4 [])
              - (⌊atofQ ((nmeaTokens cs).getD 4 []) / 100⌋ : ℚ) * 100) / 60))
    ∧ (parseGGASentence gga1).latitude = 481173 / 10000
    ∧ (parseGGASentence gga1).longitude = 691 / 60
    ∧ (parseGGASentence gga1).fixType = 1
    ∧ (parseGGASentence gga1).satellites = 8
    ∧ (parseGGASentence gga1).hdop = 9 / 10 := by
  have h0lat : (0 : ℚ) ≤ atofQ ((nmeaTokens cs).getD 2 []) := atofQ_nonneg _ hlat
  have h0lon : (0 : ℚ) ≤ atofQ ((nmeaTokens cs).getD 4 []) := atofQ_nonneg _ hlon
  have hgen : ∀ raw : ℚ, ∀ d : Char, 0 ≤ raw →
      (if d = 'S' then -((truncQ (raw / 100) : ℚ) + (raw - (truncQ (raw / 100) : ℚ) * 100) / 60)
       else ((truncQ (raw / 100) : ℚ) + (raw - (truncQ (raw / 100) : ℚ) * 100) / 60))
      = (if d = 'S' then (-1 : ℚ) else 1) *
          ((⌊raw / 100⌋ : ℚ) + (raw - (⌊raw / 100⌋ : ℚ) * 100) / 60) := by
    intro raw d hraw
    rw [truncQ_eq_floor _ (div_nonneg hraw (by norm_num))]
    by_cases hd : d = 'S' <;> simp [hd]
  have hgenW : ∀ raw : ℚ, ∀ d : Char, 0 ≤ raw →
      (if d = 'W' then -((truncQ (raw / 100) : ℚ) + (raw - (truncQ (raw / 100) : ℚ) * 100) / 60)
       else ((truncQ (raw / 100) : ℚ) + (raw - (truncQ (raw / 100) : ℚ) * 100) / 60))
      = (if d = 'W' then (-1 : ℚ) else 1) *
          ((⌊raw / 100⌋ : ℚ) + (raw - (⌊raw / 100⌋ : ℚ) * 100) / 60) := by
    intro raw d hraw
    rw [truncQ_eq_floor _ (div_nonneg hraw (by norm_num))]
    by_cases hd : d = 'W' <;> simp [hd]
  have htoks : nmeaTokens gga1 =
      ["$GPGGA".data, "123519".data, "4807.038".data, "N".data, "01131.000".data,
       "E".data, "1".data, "08".data, "0.9".data, "545.4".data, "M".data,
       "46.9".data, "M".data, "*47".data] := by decide
  have hd1 : ggaScan (nmeaTokens gga1) 0 ggaInit =
      { latitude := atofQ "4807.038".data, longitude := atofQ "01131.000".data,
        altitude := atofQ "545.4".data, fixType := atoiZ "1".data,
        satellites := atoiZ "08".data, hdop := atofQ "0.9".data,
        ageOfDifferentialData := atofQ "*47".data, latDirection := 'N',
        lonDirection := 'E', timeBuffer := "123519".data } := by
    rw [ggaScan_eq, htoks]
    rfl
  have hlatval : atofQ "4807.038".data = (4807 : ℚ) + 38 / 1000 := by
    rw [atofQ_eval _ false 4807 38 3 (by decide)]
    norm_num
  have hlonval : atofQ "01131.000".data = (1131 : ℚ) := by
    rw [atofQ_eval _ false 1131 0 3 (by decide)]
    norm_num
  have hhdopval : atofQ "0.9".data = (9 : ℚ) / 10 := by
    rw [atofQ_eval _ false 0 9 1 (by decide)]
    norm_num
  refine ⟨?_, ?_, ?_, ?_, by decide, by decide, ?_⟩
  · simp only [parseGGASentence]
    rw [ggaScan_eq (nmeaTokens cs)]
    exact hgen _ _ h0lat
  · simp only [parseGGASentence]
    rw [ggaScan_eq (nmeaTokens cs)]
    exact hgenW _ _ h0lon
  · simp only [parseGGASentence]
    rw [hd1]
    dsimp only
    rw [if_neg (by decide : ¬('N' = 'S')), hlatval,
      truncQ_eq_floor _ (by positivity),
      show ⌊((4807 : ℚ) + 38 / 1000) / 100⌋ = 48 by rw [Int.floor_eq_iff]; norm_num]
    norm_num
  · simp only [parseGGASentence]
    rw [hd1]
    dsimp only
    rw [if_neg (by decide : ¬('E' = 'W')), hlonval,
      truncQ_eq_floor _ (by positivity),
      show ⌊(1131 : ℚ) / 100⌋ = 11 by rw [Int.floor_eq_iff]; norm_num]
    norm_num
  · simp only [parseGGASentence]
    rw [hd1]
    exact hhdopval

theorem parseGGASentence_spec_witness :
    (parseGGASentence gga1).latitude = 481173 / 10000
    ∧ (parseGGASentence gga1).fixType = 1 :=
  ⟨(parseGGASentence_spec gga1 (by decide) (by decide)).2.2.1,
   (parseGGASentence_spec gga1 (by decide) (by decide)).2.2.2.2.1⟩

/-! ## Claim C6 — RMC status and Y2K pivot -/

/-- Claim C6: `parseRMCSentence` returns `valid = true` iff the status field
(the token at `strtok` position 2) equals "A"; when the date field (token 9)
has at least six characters, the two-digit year yy is resolved as 1900+yy if
yy ≥ 80 and 2000+yy otherwise; and the specification's example RMC sentence
parses to day 23, month 3, year 1994, valid. -/
theorem parseRMCSentence_spec (cs : List Char) :
    ((parseRMCSentence cs).valid = true ↔ (nmeaTokens cs).getD 2 [] = ['A'])
    ∧ (6 ≤ ((nmeaTokens cs).getD 9 []).length →
        (parseRMCSentence cs).year =
          (if 80 ≤ 10 * charDigitZ (((nmeaTokens cs).getD 9 []).getD 4 (Char.ofNat 0))
                  + charDigitZ (((nmeaTokens cs).getD 9 []).getD 5 (Char.ofNat 0))
           then 1900 + (10 * charDigitZ (((nmeaTokens cs).getD 9 []).getD 4 (Char.ofNat 0))
                  + charDigitZ (((nmeaTokens cs).getD 9 []).getD 5 (Char.ofNat 0)))
           else 2000 + (10 * charDigitZ (((nmeaTokens cs).getD 9 []).getD 4 (Char.ofNat 0))
                  + charDigitZ (((nmeaTokens cs).getD 9 []).getD 5 (Char.ofNat 0)))))
    ∧ parseRMCSentence rmc1 = { year := 1994, month := 3, day := 23, valid := true } := by
  refine ⟨?_, ?_, by decide⟩
  · simp only [parseRMCSentence]
    rw [rmcScan_eq (nmeaTokens cs)]
    rw [apply_ite RMCData.valid]
    dsimp only
    rw [ite_self]
    by_cases h2 : (nmeaTokens cs).getD 2 [] = ['A'] <;> simp [h2]
  · intro hlen
    simp only [parseRMCSentence]
    rw [rmcScan_eq (nmeaTokens cs)]
    dsimp only
    have hl6 : (((nmeaTokens cs).getD 9 []).take 6).length = 6 := by
      rw [List.length_take]
      omega
    rw [if_pos hl6]
    have hg4 : (((nmeaTokens cs).getD 9 []).take 6).getD 4 (Char.ofNat 0)
        = ((nmeaTokens cs).getD 9 []).getD 4 (Char.ofNat 0) := by
      simp only [List.getD_eq_getElem?_getD]
      rw [List.getElem?_take_of_lt (by omega)]
    have hg5 : (((nmeaTokens cs).getD 9 []).take 6).getD 5 (Char.ofNat 0)
        = ((nmeaTokens cs).getD 9 []).getD 5 (Char.ofNat 0) := by
      simp only [List.getD_eq_getElem?_getD]
      rw [List.getElem?_take_of_lt (by omega)]
    dsimp only
    rw [hg4, hg5]

theorem parseRMCSentence_spec_witness :
    (parseRMCSentence rmc1).year = 1994 :=
  ((parseRMCSentence_spec rmc1).2.1 (by decide)).trans (by decide)

/-! ## Claim C7 — VTG speed and heading -/

/-- Claim C7: `parseVTGSentence` sets the speed from the token preceding the
last token that starts with 'K' (when one exists), divided by 3.6 to convert
km/h to m/s, and 0 otherwise; it takes the heading from the field at
position 1 and resets it to 0 when the field at position 2 is present and
not exactly "T"; the specification's example VTG sentence yields heading
54.7 and speed 10.2/3.6 = 17/6 m/s. -/
theorem parseVTGSentence_spec (cs : List Char) :
    ((parseVTGSentence cs).speed =
      ((lastKPrev none (nmeaTokens cs)).map (fun p => atofQ p / (18 / 5 : ℚ))).getD 0)
    ∧ ((parseVTGSentence cs).direction =
      (if 3 ≤ (nmeaTokens cs).length ∧ (nmeaTokens cs).getD 2 [] ≠ ['T'] then 0
       else atofQ ((nmeaTokens cs).getD 1 [])))
    ∧ (parseVTGSentence vtg1).direction = 547 / 10
    ∧ (parseVTGSentence vtg1).speed = 17 / 6 := by
  have htoksv : nmeaTokens vtg1 =
      ["$GPVTG".data, "054.7".data, "T".data, "034.4".data, "M".data, "005.5".data,
       "N".data, "010.2".data, "K*48".data] := by decide
  refine ⟨?_, ?_, ?_, ?_⟩
  · simp only [parseVTGSentence]
    rw [vtgScan_speed]
  · simp only [parseVTGSentence]
    exact vtgScan_direction (nmeaTokens cs)
  · simp only [parseVTGSentence]
    rw [vtgScan_direction, htoksv]
    rw [if_neg (by decide)]
    rw [show (["$GPVTG".data, "054.7".data, "T".data, "034.4".data, "M".data,
        "005.5".data, "N".data, "010.2".data, "K*48".data].getD 1 []) = "054.7".data
      from rfl]
    rw [atofQ_eval _ false 54 7 1 (by decide)]
    norm_num
  · have hK : lastKPrev none (nmeaTokens vtg1) = some "010.2".data := by decide
    simp only [parseVTGSentence]
    rw [vtgScan_speed, hK]
    show atofQ "010.2".data / (18 / 5 : ℚ) = 17 / 6
    rw [atofQ_eval _ false 10 2 1 (by decide)]
    norm_num
